import Mathlib

/-!
Shallow embedding of the RackLink protocol codec
(`protocolUtils.ts`: checksum, byte escaping, hex text codec, packet
encoder/decoder, device-response simulator) together with the command
and subcommand registries (`types.ts`).  Bytes are modelled as `Nat`;
the JavaScript 32-bit bitwise idioms `(~b) & 0xFF` and `s & 0x7F` are
modelled by their exact values on non-negative integers.
-/

namespace Racklink

/-- JS `(~b) & 0xFF` on a non-negative number `b`: the low 8 bits of the
bitwise complement, i.e. `255 - b % 256`. -/
def jsComplementByte (b : Nat) : Nat := 255 - b % 256

/-- The three protected byte values, in the object's insertion order
`{HEADER: 0xFE, TAIL: 0xFF, ESCAPE: 0xFD}` (`Object.values`). -/
def protectedValues : List Nat := [0xFE, 0xFF, 0xFD]

/-- `calculateChecksum(header, length, data)`: accumulate
`header + length + Σ data` and mask with `& 0x7F`. -/
def calculateChecksum (header length : Nat) (data : List Nat) : Nat :=
  (data.foldl (fun sum byte => sum + byte) (header + length)) &&& 0x7F

/-- `escapeData`: each byte in the protected set is replaced by
`0xFD` followed by its complement `(~b) & 0xFF`; other bytes pass through. -/
def escapeData : List Nat → List Nat
  | [] => []
  | byte :: rest =>
    if byte ∈ protectedValues then
      0xFD :: jsComplementByte byte :: escapeData rest
    else
      byte :: escapeData rest

/-- Result of `unescapeData`: the unescaped bytes and the parallel
marker list recording which output positions came from an escape pair. -/
structure UnescapeResult where
  unescaped : List Nat
  breakdown : List Bool
  deriving Repr, DecidableEq

/-- `unescapeData`: scan left to right; `0xFD` with a following byte
consumes two input bytes and emits the complement of the second; any
other byte (including a trailing `0xFD` with no following byte) is
emitted literally. -/
def unescapeData : List Nat → UnescapeResult
  | [] => ⟨[], []⟩
  | [b] => ⟨[b], [false]⟩
  | a :: b :: rest =>
    if a = 0xFD then
      let r := unescapeData rest
      ⟨jsComplementByte b :: r.unescaped, true :: r.breakdown⟩
    else
      let r := unescapeData (b :: rest)
      ⟨a :: r.unescaped, false :: r.breakdown⟩

/-- The regex class `[0-9a-fA-F]` of `hexToBytes`. -/
def isHexChar (c : Char) : Bool :=
  (48 ≤ c.toNat && c.toNat ≤ 57) ||
  (97 ≤ c.toNat && c.toNat ≤ 102) ||
  (65 ≤ c.toNat && c.toNat ≤ 70)

/-- Value of one hex digit character, as `parseInt(·, 16)` assigns it. -/
def hexCharVal (c : Char) : Nat :=
  if 48 ≤ c.toNat ∧ c.toNat ≤ 57 then c.toNat - 48
  else if 97 ≤ c.toNat ∧ c.toNat ≤ 102 then c.toNat - 87
  else if 65 ≤ c.toNat ∧ c.toNat ≤ 70 then c.toNat - 55
  else 0

/-- The stride-2 loop of `hexToBytes`: `parseInt(cleanHex.substr(i, 2), 16)`.
A final lone digit yields `substr` of length 1, parsed as that digit. -/
def parseHexPairs : List Char → List Nat
  | [] => []
  | [c] => [hexCharVal c]
  | c1 :: c2 :: rest => (16 * hexCharVal c1 + hexCharVal c2) :: parseHexPairs rest

/-- `hexToBytes`: strip every non-hex character, then parse two digits
per byte (a trailing lone digit is parsed on its own). -/
def hexToBytes (hex : String) : List Nat :=
  parseHexPairs (hex.toList.filter (fun c => isHexChar c))

/-- JS `n.toString(16)` for a natural number: lowercase hex digits. -/
def toStringBase16 (n : Nat) : String := String.mk (Nat.toDigits 16 n)

/-- JS `s.padStart(2, '0')`. -/
def padStart2 (s : String) : String :=
  String.mk (List.replicate (2 - s.length) '0' ++ s.toList)

/-- JS `s.toUpperCase()` on ASCII text: uppercase every character. -/
def toUpperStr (s : String) : String := String.mk (s.toList.map Char.toUpper)

/-- One byte of `bytesToHex`: `b.toString(16).padStart(2, '0').toUpperCase()`. -/
def byteToHex (b : Nat) : String := toUpperStr (padStart2 (toStringBase16 b))

/-- JS `Array.prototype.join(' ')`. -/
def joinSpace : List String → String
  | [] => ""
  | [s] => s
  | s :: rest => s ++ " " ++ joinSpace rest

/-- `bytesToHex`: uppercase two-digit hex, space separated. -/
def bytesToHex (bytes : List Nat) : String :=
  joinSpace (bytes.map byteToHex)

/-- `asciiToBytes`: `charCodeAt` of every character. -/
def asciiToBytes (str : String) : List Nat :=
  str.toList.map (fun char => char.toNat)

/-- `buildPacket`: frame = header, length, escaped envelope, checksum, tail,
rendered as a hex string.  Length and checksum are computed over the
unescaped envelope. -/
def buildPacket (dataEnvelope : List Nat) : String :=
  let header := 0xFE
  let tail := 0xFF
  let length := dataEnvelope.length
  let checksum := calculateChecksum header length dataEnvelope
  let escapedEnvelope := escapeData dataEnvelope
  bytesToHex ([header, length] ++ escapedEnvelope ++ [checksum, tail])

/-- JS `arr.slice(a, b)`: elements from index `a` up to (excluding) `b`. -/
def jsSlice (l : List Nat) (a b : Nat) : List Nat := (l.take b).drop a

/-- TS reverse enum lookup `CommandCode[c]`: `none` models `undefined`. -/
def commandCodeName (c : Nat) : Option String :=
  match c with
  | 0x01 => some "PING"
  | 0x02 => some "LOGIN"
  | 0x10 => some "NACK"
  | 0x20 => some "POWER_OUTLETS"
  | 0x21 => some "OUTLET_NAME"
  | 0x22 => some "OUTLET_COUNT"
  | 0x23 => some "ENERGY_MGMT"
  | 0x30 => some "DRY_CONTACTS"
  | 0x31 => some "CONTACT_NAME"
  | 0x32 => some "CONTACT_COUNT"
  | 0x36 => some "SEQUENCE"
  | 0x37 => some "EPO"
  | 0x40 => some "LOG_ALERTS"
  | 0x41 => some "STATUS_CHANGE"
  | 0x50 => some "SENSORS_START"
  | 0x61 => some "SENSORS_END"
  | 0x70 => some "THRESHOLDS_START"
  | 0x77 => some "THRESHOLDS_END"
  | 0x80 => some "READ_LOG"
  | 0x81 => some "LOG_COUNT"
  | 0x82 => some "CLEAR_LOG"
  | 0x90 => some "PRODUCT_PART"
  | 0x91 => some "PRODUCT_RATING"
  | 0x93 => some "PRODUCT_SURGE"
  | 0x94 => some "PRODUCT_IP"
  | 0x95 => some "PRODUCT_MAC"
  | _ => none

/-- TS reverse enum lookup `SubCommand[c]`. -/
def subCommandName (c : Nat) : Option String :=
  match c with
  | 0x01 => some "SET"
  | 0x02 => some "GET"
  | 0x10 => some "RESPONSE"
  | 0x12 => some "STATUS_UPDATE"
  | 0x30 => some "LOG_UPDATE"
  | _ => none

/-- One entry of the decoder's field breakdown. -/
structure PacketBreakdown where
  label : String
  hex : String
  description : String
  deriving Repr, DecidableEq

/-- `parsePacket`: decode a hex string into the ordered field breakdown.
Fewer than 5 parsed bytes yields the empty breakdown; the Destination,
Command (and, if a third unescaped byte exists, Subcommand) entries are
appended only when the unescaped envelope has at least 2 bytes. -/
def parsePacket (hex : String) : List PacketBreakdown :=
  let bytes := hexToBytes hex
  if bytes.length < 5 then [] else
  let rawLength := bytes.getD 1 0
  let envelopeWithEscapes := jsSlice bytes 2 (bytes.length - 2)
  let unescaped := (unescapeData envelopeWithEscapes).unescaped
  let headerEntry : PacketBreakdown :=
    ⟨"Header", bytesToHex [bytes.getD 0 0],
      if bytes.getD 0 0 = 0xFE then "Valid Start Character (0xFE)" else "INVALID Header"⟩
  let lengthEntry : PacketBreakdown :=
    ⟨"Length", bytesToHex [bytes.getD 1 0],
      "Payload Data Length: " ++ toString rawLength ++ " bytes"⟩
  let envelopeEntry : PacketBreakdown :=
    ⟨"Data Envelope", bytesToHex envelopeWithEscapes,
      "Unescaped Payload: [" ++ bytesToHex unescaped ++ "]"⟩
  let commandEntries : List PacketBreakdown :=
    if 2 ≤ unescaped.length then
      let dest := unescaped.getD 0 0
      let cmd := unescaped.getD 1 0
      [⟨"Destination", bytesToHex [dest],
          if dest = 0 then "Broadcast/Device" else "Target " ++ toString dest⟩,
       ⟨"Command", bytesToHex [cmd],
          ((commandCodeName cmd).getD "Unknown Command") ++
            " (0x" ++ padStart2 (toStringBase16 cmd) ++ ")"⟩] ++
      (if 3 ≤ unescaped.length then
        let sub := unescaped.getD 2 0
        [⟨"Subcommand/Param", bytesToHex [sub],
            (subCommandName sub).getD "Param/Data"⟩]
      else [])
    else []
  let checksum := bytes.getD (bytes.length - 2) 0
  let expectedChecksum := calculateChecksum (bytes.getD 0 0) rawLength unescaped
  let checksumEntry : PacketBreakdown :=
    ⟨"Checksum", bytesToHex [checksum],
      if checksum = expectedChecksum then "Valid Checksum"
      else "Invalid! Expected 0x" ++ toUpperStr (toStringBase16 expectedChecksum)⟩
  let tailEntry : PacketBreakdown :=
    ⟨"Tail", bytesToHex [bytes.getD (bytes.length - 1) 0],
      if bytes.getD (bytes.length - 1) 0 = 0xFF then "Valid End Character (0xFF)" else "INVALID Tail"⟩
  headerEntry :: lengthEntry :: envelopeEntry ::
    (commandEntries ++ [checksumEntry, tailEntry])

/-- JS `unescaped[3] || 0x01`: an absent fourth byte (`undefined`) and a
zero fourth byte are both falsy, so both fall back to `0x01`. -/
def indexOrDefault (unescaped : List Nat) : Nat :=
  match unescaped.get? 3 with
  | none => 0x01
  | some 0 => 0x01
  | some v => v

/-- `simulateResponse`: decode the request, require at least 5 raw bytes
and at least 3 unescaped envelope bytes, then dispatch on the command
byte (LOGIN, OUTLET_NAME, POWER_OUTLETS, PING; anything else yields
`none`) and encode the response envelope with `buildPacket`. -/
def simulateResponse (requestHex : String) : Option String :=
  let bytes := hexToBytes requestHex
  if bytes.length < 5 then none else
  let envelopeWithEscapes := jsSlice bytes 2 (bytes.length - 2)
  let unescaped := (unescapeData envelopeWithEscapes).unescaped
  if unescaped.length < 3 then none else
  let cmd := unescaped.getD 1 0
  let sub := unescaped.getD 2 0
  if cmd = 0x02 then
    some (buildPacket [0x00, cmd, 0x10, 0x01])
  else if cmd = 0x21 then
    if sub = 0x02 then
      some (buildPacket ([0x00, cmd, 0x10, indexOrDefault unescaped] ++
        asciiToBytes "Outlet 1"))
    else
      some (buildPacket [0x00, cmd, 0x10])
  else if cmd = 0x20 then
    some (buildPacket [0x00, cmd, 0x10, indexOrDefault unescaped, 0x01])
  else if cmd = 0x01 then
    some (buildPacket [0x00, 0x01, 0x10])
  else
    none

/-- The unescaped data envelope both `parsePacket` and `simulateResponse`
extract from a raw hex string: unescape the bytes strictly between the
header/length prefix and the checksum/tail suffix. -/
def frameUnescaped (hex : String) : List Nat :=
  (unescapeData (jsSlice (hexToBytes hex) 2 ((hexToBytes hex).length - 2))).unescaped

/-! ## Helper lemmas -/

theorem foldl_add_eq (d : List Nat) (init : Nat) :
    d.foldl (fun sum byte => sum + byte) init = init + d.sum := by
  induction d generalizing init with
  | nil => simp
  | cons b rest ih => simp [List.foldl_cons, ih, List.sum_cons]; omega

theorem land_127_eq_mod (n : Nat) : n &&& 127 = n % 128 := by
  have h := Nat.and_pow_two_sub_one_eq_mod n 7
  norm_num at h
  exact h

theorem calculateChecksum_eq_mod (header length : Nat) (data : List Nat) :
    calculateChecksum header length data = (header + length + data.sum) % 128 := by
  unfold calculateChecksum
  rw [foldl_add_eq, land_127_eq_mod]

theorem calculateChecksum_le (header length : Nat) (data : List Nat) :
    calculateChecksum header length data ≤ 127 := by
  rw [calculateChecksum_eq_mod]
  omega

theorem jsComplementByte_involutive {b : Nat} (hb : b ≤ 255) :
    jsComplementByte (jsComplementByte b) = b := by
  unfold jsComplementByte
  omega

theorem escapeData_cons (b : Nat) (rest : List Nat) :
    escapeData (b :: rest) =
      if b ∈ protectedValues then 0xFD :: jsComplementByte b :: escapeData rest
      else b :: escapeData rest := rfl

theorem unescapeData_cons_cons (a b : Nat) (rest : List Nat) :
    unescapeData (a :: b :: rest) =
      if a = 0xFD then
        ⟨jsComplementByte b :: (unescapeData rest).unescaped,
         true :: (unescapeData rest).breakdown⟩
      else
        ⟨a :: (unescapeData (b :: rest)).unescaped,
         false :: (unescapeData (b :: rest)).breakdown⟩ := by
  rw [unescapeData]

theorem escapeData_eq_nil_iff (l : List Nat) : escapeData l = [] ↔ l = [] := by
  cases l with
  | nil => simp [escapeData]
  | cons b rest =>
    rw [escapeData_cons]
    constructor
    · intro h
      split at h <;> simp_all
    · intro h
      exact absurd h (List.cons_ne_nil b rest)

theorem mem_escapeData_le {l : List Nat} (hl : ∀ b ∈ l, b ≤ 255) :
    ∀ b ∈ escapeData l, b ≤ 255 := by
  induction l with
  | nil => simp [escapeData]
  | cons a rest ih =>
    have ha : a ≤ 255 := hl a (List.mem_cons_self a rest)
    have hrest : ∀ b ∈ rest, b ≤ 255 := fun b hb => hl b (List.mem_cons_of_mem a hb)
    intro b hb
    rw [escapeData_cons] at hb
    split at hb
    · simp only [List.mem_cons] at hb
      rcases hb with h | h | h
      · omega
      · subst h
        unfold jsComplementByte
        omega
      · exact ih hrest b h
    · simp only [List.mem_cons] at hb
      rcases hb with h | h
      · omega
      · exact ih hrest b h

theorem unescape_escape {env : List Nat} (henv : ∀ b ∈ env, b ≤ 255) :
    (unescapeData (escapeData env)).unescaped = env := by
  induction env with
  | nil => simp [escapeData, unescapeData]
  | cons b rest ih =>
    have hb : b ≤ 255 := henv b (List.mem_cons_self b rest)
    have hrest : ∀ x ∈ rest, x ≤ 255 := fun x hx => henv x (List.mem_cons_of_mem b hx)
    rw [escapeData_cons]
    by_cases hp : b ∈ protectedValues
    · rw [if_pos hp, unescapeData_cons_cons, if_pos rfl]
      rw [jsComplementByte_involutive hb]
      simp [ih hrest]
    · rw [if_neg hp]
      have hbne : b ≠ 0xFD := by
        intro h
        exact hp (by simp [protectedValues, h])
      cases hr : escapeData rest with
      | nil =>
        have : rest = [] := (escapeData_eq_nil_iff rest).mp hr
        subst this
        simp [unescapeData]
      | cons c tl =>
        rw [unescapeData_cons_cons, if_neg hbne]
        have := ih hrest
        rw [hr] at this
        simp [this]

set_option maxRecDepth 10000 in
theorem byteToHex_spec : ∀ b : Fin 256,
    ((byteToHex b.val).toList.length = 2 ∧
     ((byteToHex b.val).toList.all isHexChar = true) ∧
     parseHexPairs ((byteToHex b.val).toList) = [b.val]) := by decide

theorem parseHexPairs_flat (bs : List Nat) (hbs : ∀ b ∈ bs, b ≤ 255) :
    parseHexPairs (bs.flatMap (fun b => (byteToHex b).toList)) = bs := by
  induction bs with
  | nil => simp [parseHexPairs]
  | cons b rest ih =>
    have hb : b ≤ 255 := hbs b (List.mem_cons_self b rest)
    have hrest : ∀ x ∈ rest, x ≤ 255 := fun x hx => hbs x (List.mem_cons_of_mem b hx)
    have hspec := byteToHex_spec ⟨b, by omega⟩
    obtain ⟨c1, c2, hc⟩ := List.length_eq_two.mp hspec.1
    have hval : parseHexPairs [c1, c2] = [b] := by
      have := hspec.2.2
      rw [hc] at this
      exact this
    have hval2 : 16 * hexCharVal c1 + hexCharVal c2 = b := by
      have : (16 * hexCharVal c1 + hexCharVal c2) :: parseHexPairs [] = [b] := hval
      simp [parseHexPairs] at this
      exact this
    rw [List.flatMap_cons, hc]
    show parseHexPairs (c1 :: c2 :: rest.flatMap (fun b => (byteToHex b).toList)) = b :: rest
    rw [parseHexPairs, hval2, ih hrest]

theorem isHexChar_space : isHexChar ' ' = false := rfl

theorem filter_byteToHex {b : Nat} (hb : b ≤ 255) :
    (byteToHex b).toList.filter (fun c => isHexChar c) = (byteToHex b).toList := by
  apply List.filter_eq_self.mpr
  intro c hc
  have hspec := (byteToHex_spec ⟨b, by omega⟩).2.1
  rw [List.all_eq_true] at hspec
  exact hspec c hc

theorem joinSpace_cons_cons (s r : String) (tl : List String) :
    joinSpace (s :: r :: tl) = s ++ " " ++ joinSpace (r :: tl) := rfl

theorem toList_joinSpace_filter (bs : List Nat) (hbs : ∀ b ∈ bs, b ≤ 255) :
    (bytesToHex bs).toList.filter (fun c => isHexChar c) =
      bs.flatMap (fun b => (byteToHex b).toList) := by
  induction bs with
  | nil => simp [bytesToHex, joinSpace]
  | cons b rest ih =>
    have hb : b ≤ 255 := hbs b (List.mem_cons_self b rest)
    have hrest : ∀ x ∈ rest, x ≤ 255 := fun x hx => hbs x (List.mem_cons_of_mem b hx)
    cases rest with
    | nil =>
      show ((joinSpace [byteToHex b]).toList.filter (fun c => isHexChar c)) = _
      rw [joinSpace]
      rw [filter_byteToHex hb]
      simp
    | cons r tl =>
      show ((joinSpace (byteToHex b :: byteToHex r :: tl.map byteToHex)).toList.filter
        (fun c => isHexChar c)) = _
      rw [joinSpace_cons_cons]
      have hlist : (byteToHex b ++ " " ++
          joinSpace (byteToHex r :: tl.map byteToHex)).toList =
          (byteToHex b).toList ++ ' ' :: (joinSpace (byteToHex r :: tl.map byteToHex)).toList := by
        show ((byteToHex b ++ " " ++ joinSpace (byteToHex r :: tl.map byteToHex))).data = _
        rw [String.data_append, String.data_append, List.append_assoc]
        rfl
      rw [hlist, List.filter_append]
      have ihr := ih hrest
      show _ ++ List.filter (fun c => isHexChar c) (' ' :: _) = _
      rw [List.filter_cons_of_neg (by simp [isHexChar_space])]
      rw [filter_byteToHex hb]
      have hsame : (bytesToHex (r :: tl)).toList.filter (fun c => isHexChar c) =
          (joinSpace (byteToHex r :: tl.map byteToHex)).toList.filter (fun c => isHexChar c) := rfl
      rw [hsame] at ihr
      rw [ihr]
      simp [List.flatMap_cons]

theorem hexToBytes_bytesToHex (bs : List Nat) (hbs : ∀ b ∈ bs, b ≤ 255) :
    hexToBytes (bytesToHex bs) = bs := by
  unfold hexToBytes
  rw [toList_joinSpace_filter bs hbs, parseHexPairs_flat bs hbs]

theorem hexToBytes_buildPacket {env : List Nat} (h255 : ∀ b ∈ env, b ≤ 255)
    (hlen : env.length ≤ 255) :
    hexToBytes (buildPacket env) =
      [0xFE, env.length] ++ escapeData env ++
        [calculateChecksum 0xFE env.length env, 0xFF] := by
  unfold buildPacket
  apply hexToBytes_bytesToHex
  intro b hb
  simp only [List.mem_append, List.mem_cons, List.not_mem_nil, or_false] at hb
  rcases hb with ((h | h) | h) | (h | h)
  · omega
  · omega
  · exact mem_escapeData_le h255 b h
  · have := calculateChecksum_le 0xFE env.length env
    omega
  · omega

theorem jsSlice_frame (esc : List Nat) (n c : Nat) :
    jsSlice ([0xFE, n] ++ esc ++ [c, 0xFF]) 2
      (([0xFE, n] ++ esc ++ [c, 0xFF]).length - 2) = esc := by
  unfold jsSlice
  have hlen : ([0xFE, n] ++ esc ++ [c, 0xFF]).length - 2 = 2 + esc.length := by
    simp
    omega
  rw [hlen]
  rw [← List.take_drop]
  have hdrop : ([0xFE, n] ++ esc ++ [c, 0xFF]).drop 2 = esc ++ [c, 0xFF] := by
    simp
  rw [hdrop, List.take_left]

/-- The unescaped envelope that `parsePacket` and `simulateResponse`
extract from a frame built by `buildPacket` is the original envelope. -/
theorem frame_envelope_roundtrip {env : List Nat} (h255 : ∀ b ∈ env, b ≤ 255)
    (hlen : env.length ≤ 255) :
    (unescapeData (jsSlice (hexToBytes (buildPacket env)) 2
      ((hexToBytes (buildPacket env)).length - 2))).unescaped = env := by
  rw [hexToBytes_buildPacket h255 hlen, jsSlice_frame, unescape_escape h255]

theorem escapeData_length_ge (l : List Nat) : l.length ≤ (escapeData l).length := by
  induction l with
  | nil => simp [escapeData]
  | cons b rest ih =>
    rw [escapeData_cons]
    split <;> (simp only [List.length_cons]; omega)

theorem buildPacket_length {env : List Nat} (h255 : ∀ b ∈ env, b ≤ 255)
    (hlen : env.length ≤ 255) :
    (hexToBytes (buildPacket env)).length = (escapeData env).length + 4 := by
  rw [hexToBytes_buildPacket h255 hlen]
  simp only [List.length_append, List.length_cons, List.length_nil]
  omega

/-- A final `0xFD` that the scanner reaches as a fresh token (the input
does not end in `0xFD 0xFD`) is emitted literally, with a `false`
escape marker. -/
theorem unescape_trailing_escape :
    ∀ (xs : List Nat), xs.getLast? ≠ some 0xFD →
      unescapeData (xs ++ [0xFD]) =
        ⟨(unescapeData xs).unescaped ++ [0xFD],
         (unescapeData xs).breakdown ++ [false]⟩
  | [], _ => by simp [unescapeData]
  | [a], h => by
    have ha : a ≠ 0xFD := by simpa using h
    show unescapeData [a, 0xFD] = _
    rw [unescapeData_cons_cons, if_neg ha]
    simp [unescapeData]
  | a :: b :: rest, h => by
    have hlast : (b :: rest).getLast? ≠ some 0xFD := by
      rwa [List.getLast?_cons_cons] at h
    show unescapeData (a :: b :: (rest ++ [0xFD])) = _
    by_cases hA : a = 0xFD
    · subst hA
      rw [unescapeData_cons_cons, if_pos rfl, unescapeData_cons_cons, if_pos rfl]
      cases rest with
      | nil => simp [unescapeData]
      | cons c tl =>
        have hrl : (c :: tl).getLast? ≠ some 0xFD := by
          rwa [List.getLast?_cons_cons] at hlast
        rw [unescape_trailing_escape (c :: tl) hrl]
        simp
    · rw [unescapeData_cons_cons, if_neg hA, unescapeData_cons_cons, if_neg hA]
      have hrec := unescape_trailing_escape (b :: rest) hlast
      simp only [List.cons_append] at hrec
      rw [hrec]
      simp

theorem parseHexPairs_append_single :
    ∀ (cs : List Char) (c : Char), cs.length % 2 = 0 →
      parseHexPairs (cs ++ [c]) = parseHexPairs cs ++ [hexCharVal c]
  | [], c, _ => by simp [parseHexPairs]
  | [a], c, h => by simp at h
  | a :: b :: rest, c, h => by
    have hr : rest.length % 2 = 0 := by
      simp only [List.length_cons] at h
      omega
    show parseHexPairs (a :: b :: (rest ++ [c])) = _
    rw [parseHexPairs, parseHexPairs_append_single rest c hr]
    rfl

theorem toList_push (s : String) (c : Char) : (s.push c).toList = s.toList ++ [c] := rfl

theorem frameUnescaped_buildPacket {env : List Nat} (h255 : ∀ b ∈ env, b ≤ 255)
    (hlen : env.length ≤ 255) :
    frameUnescaped (buildPacket env) = env := by
  unfold frameUnescaped
  exact frame_envelope_roundtrip h255 hlen

theorem simulateResponse_dispatch (hex : String)
    (h5 : ¬ (hexToBytes hex).length < 5)
    (h3 : ¬ (frameUnescaped hex).length < 3) :
    simulateResponse hex =
      (let unescaped := frameUnescaped hex
       let cmd := unescaped.getD 1 0
       let sub := unescaped.getD 2 0
       if cmd = 0x02 then some (buildPacket [0x00, cmd, 0x10, 0x01])
       else if cmd = 0x21 then
         if sub = 0x02 then
           some (buildPacket ([0x00, cmd, 0x10, indexOrDefault unescaped] ++
             asciiToBytes "Outlet 1"))
         else some (buildPacket [0x00, cmd, 0x10])
       else if cmd = 0x20 then
         some (buildPacket [0x00, cmd, 0x10, indexOrDefault unescaped, 0x01])
       else if cmd = 0x01 then some (buildPacket [0x00, 0x01, 0x10])
       else none) := by
  unfold frameUnescaped at h3
  unfold simulateResponse frameUnescaped
  rw [if_neg h5, if_neg h3]

/-! ## Claims -/

/-- C2: for every header byte, length byte, and sequence of unescaped
envelope bytes (each in [0,255]), the checksum is exactly
`(header + length + sum) mod 128`, and the result lies in `[0,127]`. -/
theorem checksum_mod_and_range (header len : Nat) (data : List Nat)
    (_hh : header ≤ 255) (_hl : len ≤ 255) (_hd : ∀ b ∈ data, b ≤ 255) :
    calculateChecksum header len data = (header + len + data.sum) % 128 ∧
    calculateChecksum header len data ≤ 127 :=
  ⟨calculateChecksum_eq_mod header len data, calculateChecksum_le header len data⟩

/-- Witness for C2 at header `0xFE`, length 3, envelope `[00 21 02]`. -/
theorem checksum_mod_and_range_witness :
    calculateChecksum 0xFE 3 [0x00, 0x21, 0x02] =
        (0xFE + 3 + ([0x00, 0x21, 0x02] : List Nat).sum) % 128 ∧
    calculateChecksum 0xFE 3 [0x00, 0x21, 0x02] ≤ 127 :=
  checksum_mod_and_range 0xFE 3 [0x00, 0x21, 0x02] (by decide) (by decide)
    (by decide)

/-- C3: for every byte `b ≤ 255`, `unescape(escape([b])) = [b]`, and each
protected byte escapes to `0xFD` followed by its one's-complement, which
unescapes back to exactly `b`. -/
theorem escape_unescape_single (b : Nat) (hb : b ≤ 255) :
    (unescapeData (escapeData [b])).unescaped = [b] ∧
    (b ∈ protectedValues →
      escapeData [b] = [0xFD, jsComplementByte b] ∧
      (unescapeData [0xFD, jsComplementByte b]).unescaped = [b]) := by
  have hmem : ∀ x ∈ [b], x ≤ 255 := by
    intro x hx
    simp only [List.mem_singleton] at hx
    omega
  refine ⟨unescape_escape hmem, fun hp => ?_⟩
  have h1 : escapeData [b] = [0xFD, jsComplementByte b] := by
    rw [escapeData_cons, if_pos hp]
    rfl
  refine ⟨h1, ?_⟩
  rw [← h1]
  exact unescape_escape hmem

/-- Witness for C3 at the protected byte `0xFE`. -/
theorem escape_unescape_single_witness :
    (unescapeData (escapeData [0xFE])).unescaped = [0xFE] ∧
    (0xFE ∈ protectedValues →
      escapeData [0xFE] = [0xFD, jsComplementByte 0xFE] ∧
      (unescapeData [0xFD, jsComplementByte 0xFE]).unescaped = [0xFE]) :=
  escape_unescape_single 0xFE (by decide)

/-- C4 counterexample: the input `[0xFD, 0xFD]` ends in `0xFD` with no
following byte, yet the final `0xFD` is consumed as the complement byte
of an escape pair — the output is `[0x02]` and contains no literal
`0xFD` at all, refuting the claim quantified over every input ending in
`0xFD`. -/
theorem trailing_escape_counterexample :
    (unescapeData [0xFD, 0xFD]).unescaped = [0x02] ∧
    0xFD ∉ (unescapeData [0xFD, 0xFD]).unescaped := by decide

/-- C4 (amended): for every input whose final byte is `0xFD` and is not
immediately preceded by another `0xFD` (including the single-element
input `[0xFD]` itself), unescape emits that final `0xFD` literally with
a non-escape marker; in particular `unescape([0xFD]) = [0xFD]`. -/
theorem trailing_escape_leniency (xs : List Nat)
    (h : xs.getLast? ≠ some 0xFD) :
    unescapeData (xs ++ [0xFD]) =
      ⟨(unescapeData xs).unescaped ++ [0xFD],
       (unescapeData xs).breakdown ++ [false]⟩ ∧
    (unescapeData [0xFD]).unescaped = [0xFD] :=
  ⟨unescape_trailing_escape xs h, by decide⟩

/-- Witness for C4 amended at `xs = []`: `unescape([0xFD]) = [0xFD]`. -/
theorem trailing_escape_leniency_witness :
    unescapeData ([] ++ [0xFD]) =
      ⟨(unescapeData []).unescaped ++ [0xFD],
       (unescapeData []).breakdown ++ [false]⟩ ∧
    (unescapeData [0xFD]).unescaped = [0xFD] :=
  trailing_escape_leniency [] (by decide)

/-- C5: a raw input that parses to fewer than 5 bytes yields the empty
breakdown; the decoder is total, so this result is returned normally. -/
theorem insufficient_data_guard (hex : String)
    (h : (hexToBytes hex).length < 5) :
    parsePacket hex = [] := by
  unfold parsePacket
  rw [if_pos h]

/-- Witness for C5 at the 2-byte input `"FE 03"`. -/
theorem insufficient_data_guard_witness : parsePacket "FE 03" = [] :=
  insufficient_data_guard "FE 03" (by decide)

/-- C7 counterexample: the cleaned hex string `"FE0"` has an odd digit
count; the code parses the final lone digit `0` as its own byte instead
of truncating it, yielding `[0xFE, 0x00]`, not `[0xFE]`. -/
theorem odd_hex_digit_counterexample :
    hexToBytes "FE0" = [0xFE, 0x00] ∧ hexToBytes "FE0" ≠ [0xFE] := by decide

/-- C7 (amended): non-hex characters are stripped before interpretation
(two strings with the same hex-digit content parse identically), and a
final odd hex digit is parsed as one extra byte whose value is that
single digit (not dropped): `"FE0"` yields `[0xFE, 0x00]`. -/
theorem hex_parsing_strips_and_keeps_odd_digit :
    (∀ s t : String,
      s.toList.filter (fun c => isHexChar c) =
          t.toList.filter (fun c => isHexChar c) →
      hexToBytes s = hexToBytes t) ∧
    (∀ (s : String) (c : Char),
      (s.toList.filter (fun c => isHexChar c)).length % 2 = 0 →
      isHexChar c = true →
      hexToBytes (s.push c) = hexToBytes s ++ [hexCharVal c]) ∧
    hexToBytes "FE0" = [0xFE, 0x00] := by
  refine ⟨?_, ?_, by decide⟩
  · intro s t hst
    unfold hexToBytes
    rw [hst]
  · intro s c hev hc
    unfold hexToBytes
    rw [toList_push, List.filter_append]
    rw [List.filter_cons_of_pos (by simpa using hc)]
    show parseHexPairs (_ ++ [c]) = _
    rw [parseHexPairs_append_single _ c hev]

/-- Witness for C7 amended: stripping `"zz"`/`"!"` and pushing the odd
digit `'0'` onto `"FE"`. -/
theorem hex_parsing_witness :
    hexToBytes "zzFE!" = hexToBytes "FE" ∧
    hexToBytes ("FE".push '0') = hexToBytes "FE" ++ [hexCharVal '0'] :=
  ⟨hex_parsing_strips_and_keeps_odd_digit.1 "zzFE!" "FE" (by decide),
   hex_parsing_strips_and_keeps_odd_digit.2.1 "FE" '0' (by decide) (by decide)⟩

/-- C1 counterexample: the empty envelope (length 0, which the claim's
bound "length at most 255" admits) builds a 4-byte frame, so the decoder
returns the empty breakdown with no Data Envelope entry at all. -/
theorem roundtrip_empty_envelope_counterexample :
    parsePacket (buildPacket []) = [] := by decide

/-- C1 (amended): for every nonempty envelope of bytes in [0,255] with
length at most 255, the decoder's Data Envelope entry reports an
unescaped payload equal to the original envelope, and unescaping the
byte region between the length byte and the checksum/tail pair of the
encoder's output yields the envelope exactly. -/
theorem roundtrip_envelope (env : List Nat) (hne : env ≠ [])
    (h255 : ∀ b ∈ env, b ≤ 255) (hlen : env.length ≤ 255) :
    (parsePacket (buildPacket env)).get? 2 =
      some ⟨"Data Envelope", bytesToHex (escapeData env),
        "Unescaped Payload: [" ++ bytesToHex env ++ "]"⟩ ∧
    frameUnescaped (buildPacket env) = env := by
  have hfu := frameUnescaped_buildPacket h255 hlen
  refine ⟨?_, hfu⟩
  have h5 : ¬ (hexToBytes (buildPacket env)).length < 5 := by
    rw [buildPacket_length h255 hlen]
    have h1 := escapeData_length_ge env
    have h2 : 0 < env.length := List.length_pos.mpr hne
    omega
  simp only [parsePacket]
  rw [if_neg h5]
  rw [hexToBytes_buildPacket h255 hlen, jsSlice_frame, unescape_escape h255]
  rfl

/-- Witness for C1 amended at the envelope `[00 21 02]`. -/
theorem roundtrip_envelope_witness :
    (parsePacket (buildPacket [0x00, 0x21, 0x02])).get? 2 =
      some ⟨"Data Envelope", bytesToHex (escapeData [0x00, 0x21, 0x02]),
        "Unescaped Payload: [" ++ bytesToHex [0x00, 0x21, 0x02] ++ "]"⟩ ∧
    frameUnescaped (buildPacket [0x00, 0x21, 0x02]) = [0x00, 0x21, 0x02] :=
  roundtrip_envelope [0x00, 0x21, 0x02] (by decide) (by decide) (by decide)

/-- C6 counterexample: the 5-byte frame `"FE 01 00 7F FF"` has a 1-byte
unescaped envelope, so the decoder suppresses both the Destination and
the Command entry, not only the Subcommand entry. -/
theorem destination_suppressed_counterexample :
    5 ≤ (hexToBytes "FE 01 00 7F FF").length ∧
    (parsePacket "FE 01 00 7F FF").map (fun e => e.label) =
      ["Header", "Length", "Data Envelope", "Checksum", "Tail"] := by decide

/-- C6 (amended): for raw input of at least 5 bytes whose unescaped
envelope has at least 2 bytes, the breakdown always contains Header,
Length, Data Envelope, Destination (0x00 described as broadcast/device,
anything else as a target), Command (second unescaped byte), Checksum
and Tail entries, with the Subcommand entry present exactly when a third
unescaped byte exists; with fewer than 2 unescaped bytes the
Destination and Command entries are suppressed as well. -/
theorem decoder_field_entries (hex : String)
    (h5 : ¬ (hexToBytes hex).length < 5)
    (h2 : 2 ≤ (frameUnescaped hex).length) :
    (parsePacket hex).map (fun e => e.label) =
      ["Header", "Length", "Data Envelope", "Destination", "Command"] ++
        (if 3 ≤ (frameUnescaped hex).length then ["Subcommand/Param"] else []) ++
        ["Checksum", "Tail"] ∧
    (parsePacket hex).get? 3 =
      some ⟨"Destination", bytesToHex [(frameUnescaped hex).getD 0 0],
        if (frameUnescaped hex).getD 0 0 = 0 then "Broadcast/Device"
        else "Target " ++ toString ((frameUnescaped hex).getD 0 0)⟩ ∧
    (parsePacket hex).get? 4 =
      some ⟨"Command", bytesToHex [(frameUnescaped hex).getD 1 0],
        ((commandCodeName ((frameUnescaped hex).getD 1 0)).getD "Unknown Command") ++
          " (0x" ++ padStart2 (toStringBase16 ((frameUnescaped hex).getD 1 0)) ++ ")"⟩ := by
  unfold frameUnescaped at h2 ⊢
  simp only [parsePacket]
  rw [if_neg h5, if_pos h2]
  refine ⟨?_, ?_, ?_⟩
  · by_cases h3 : 3 ≤ ((unescapeData (jsSlice (hexToBytes hex) 2
        ((hexToBytes hex).length - 2))).unescaped).length
    · rw [if_pos h3, if_pos h3]
      rfl
    · rw [if_neg h3, if_neg h3]
      rfl
  · rfl
  · rfl

/-- Witness for C6 amended at the spec's Scenario 1 frame. -/
theorem decoder_field_entries_witness :
    (parsePacket "FE 03 00 21 02 24 FF").map (fun e => e.label) =
      ["Header", "Length", "Data Envelope", "Destination", "Command"] ++
        (if 3 ≤ (frameUnescaped "FE 03 00 21 02 24 FF").length
          then ["Subcommand/Param"] else []) ++
        ["Checksum", "Tail"] ∧
    (parsePacket "FE 03 00 21 02 24 FF").get? 3 =
      some ⟨"Destination",
        bytesToHex [(frameUnescaped "FE 03 00 21 02 24 FF").getD 0 0],
        if (frameUnescaped "FE 03 00 21 02 24 FF").getD 0 0 = 0
          then "Broadcast/Device"
          else "Target " ++
            toString ((frameUnescaped "FE 03 00 21 02 24 FF").getD 0 0)⟩ ∧
    (parsePacket "FE 03 00 21 02 24 FF").get? 4 =
      some ⟨"Command",
        bytesToHex [(frameUnescaped "FE 03 00 21 02 24 FF").getD 1 0],
        ((commandCodeName
            ((frameUnescaped "FE 03 00 21 02 24 FF").getD 1 0)).getD
          "Unknown Command") ++
          " (0x" ++
          padStart2 (toStringBase16
            ((frameUnescaped "FE 03 00 21 02 24 FF").getD 1 0)) ++ ")"⟩ :=
  decoder_field_entries "FE 03 00 21 02 24 FF" (by decide) (by decide)

/-- C8 counterexample: an OUTLET_NAME request with the SET subcommand
(not GET) still gets a response — the frame encoding the bare envelope
`[00 21 10]` — rather than nothing. -/
theorem outlet_name_set_counterexample :
    simulateResponse "FE 03 00 21 01 23 FF" = some "FE 03 00 21 10 32 FF" ∧
    simulateResponse "FE 03 00 21 01 23 FF" ≠ none := by decide

/-- C8 (amended): for an OUTLET_NAME (0x21) request, a GET subcommand
yields the frame encoding
`[00, OUTLET_NAME, RESPONSE, requestedIndexOrDefault1, ASCII("Outlet 1")]`;
any other subcommand yields the frame encoding the bare envelope
`[00, OUTLET_NAME, RESPONSE]` — never no response. -/
theorem outlet_name_response (hex : String)
    (h5 : ¬ (hexToBytes hex).length < 5)
    (h3 : 3 ≤ (frameUnescaped hex).length)
    (hcmd : (frameUnescaped hex).getD 1 0 = 0x21) :
    simulateResponse hex =
      some (buildPacket (if (frameUnescaped hex).getD 2 0 = 0x02 then
        [0x00, 0x21, 0x10, indexOrDefault (frameUnescaped hex)] ++
          asciiToBytes "Outlet 1"
      else [0x00, 0x21, 0x10])) := by
  rw [simulateResponse_dispatch hex h5 (by omega)]
  by_cases hsub : (frameUnescaped hex).getD 2 0 = 0x02
  all_goals
    simp only [List.getD_eq_getElem?_getD] at hcmd hsub
    simp [hcmd, hsub]

/-- Witness for C8 amended at the OUTLET_NAME GET frame of Scenario 1. -/
theorem outlet_name_response_witness :
    simulateResponse "FE 03 00 21 02 24 FF" =
      some (buildPacket
        (if (frameUnescaped "FE 03 00 21 02 24 FF").getD 2 0 = 0x02 then
          [0x00, 0x21, 0x10,
            indexOrDefault (frameUnescaped "FE 03 00 21 02 24 FF")] ++
            asciiToBytes "Outlet 1"
        else [0x00, 0x21, 0x10])) :=
  outlet_name_response "FE 03 00 21 02 24 FF" (by decide) (by decide) (by decide)

/-- C9: LOGIN credential noninterference — any two requests whose
command byte is LOGIN (0x02) with at least 3 unescaped envelope bytes
receive the identical response, the frame encoding
`[00, 02, 10, 01]`, regardless of subcommand and credential bytes. -/
theorem login_noninterference (hexA hexB : String)
    (hA5 : ¬ (hexToBytes hexA).length < 5)
    (hA3 : 3 ≤ (frameUnescaped hexA).length)
    (hAcmd : (frameUnescaped hexA).getD 1 0 = 0x02)
    (hB5 : ¬ (hexToBytes hexB).length < 5)
    (hB3 : 3 ≤ (frameUnescaped hexB).length)
    (hBcmd : (frameUnescaped hexB).getD 1 0 = 0x02) :
    simulateResponse hexA = simulateResponse hexB ∧
    simulateResponse hexA = some (buildPacket [0x00, 0x02, 0x10, 0x01]) := by
  have eA : simulateResponse hexA = some (buildPacket [0x00, 0x02, 0x10, 0x01]) := by
    rw [simulateResponse_dispatch hexA hA5 (by omega)]
    simp only [List.getD_eq_getElem?_getD] at hAcmd
    simp [hAcmd]
  have eB : simulateResponse hexB = some (buildPacket [0x00, 0x02, 0x10, 0x01]) := by
    rw [simulateResponse_dispatch hexB hB5 (by omega)]
    simp only [List.getD_eq_getElem?_getD] at hBcmd
    simp [hBcmd]
  exact ⟨by rw [eA, eB], eA⟩

/-- Witness for C9: a LOGIN SET request carrying credential bytes and a
bare LOGIN GET request get the same response frame. -/
theorem login_noninterference_witness :
    simulateResponse (buildPacket [0x00, 0x02, 0x01, 0x75, 0x73]) =
      simulateResponse (buildPacket [0x00, 0x02, 0x02]) ∧
    simulateResponse (buildPacket [0x00, 0x02, 0x01, 0x75, 0x73]) =
      some (buildPacket [0x00, 0x02, 0x10, 0x01]) :=
  login_noninterference (buildPacket [0x00, 0x02, 0x01, 0x75, 0x73])
    (buildPacket [0x00, 0x02, 0x02]) (by decide) (by decide) (by decide)
    (by decide) (by decide) (by decide)

/-- C10: zero-index fallback — for OUTLET_NAME GET and POWER_OUTLETS
requests, a fourth unescaped envelope byte equal to 0x00 and an absent
fourth byte both make the simulator substitute the default index 0x01
into its response, so the two requests are indistinguishable from the
response alone. -/
theorem zero_index_fallback (hex : String)
    (h5 : ¬ (hexToBytes hex).length < 5)
    (h3 : 3 ≤ (frameUnescaped hex).length)
    (hidx : (frameUnescaped hex).get? 3 = some 0 ∨
      (frameUnescaped hex).get? 3 = none) :
    ((frameUnescaped hex).getD 1 0 = 0x20 →
      simulateResponse hex =
        some (buildPacket [0x00, 0x20, 0x10, 0x01, 0x01])) ∧
    ((frameUnescaped hex).getD 1 0 = 0x21 →
      (frameUnescaped hex).getD 2 0 = 0x02 →
      simulateResponse hex =
        some (buildPacket ([0x00, 0x21, 0x10, 0x01] ++
          asciiToBytes "Outlet 1"))) := by
  have hdef : indexOrDefault (frameUnescaped hex) = 0x01 := by
    unfold indexOrDefault
    rcases hidx with h | h <;> rw [h]
  constructor
  · intro hcmd
    rw [simulateResponse_dispatch hex h5 (by omega)]
    simp only [List.getD_eq_getElem?_getD] at hcmd
    simp [hcmd, hdef]
  · intro hcmd hsub
    rw [simulateResponse_dispatch hex h5 (by omega)]
    simp only [List.getD_eq_getElem?_getD] at hcmd hsub
    simp [hcmd, hsub, hdef]

/-- Witness for C10: a POWER_OUTLETS request with explicit index byte
0x00 produces the default-index response. -/
theorem zero_index_fallback_witness :
    simulateResponse (buildPacket [0x00, 0x20, 0x02, 0x00]) =
      some (buildPacket [0x00, 0x20, 0x10, 0x01, 0x01]) :=
  (zero_index_fallback (buildPacket [0x00, 0x20, 0x02, 0x00])
    (by decide) (by decide) (by decide)).1 (by decide)

end Racklink
